import Mathlib

/-!
Shallow embedding of the go-grpc-library-service repository core: the
in-memory gRPC service (`internal/service/library.go`), the
repository-delegating service variant, the CockroachDB repository
(`UPDATE`/`DELETE`/`SELECT` over the `books` table) and the
`domain.BookToDto` translation, together with theorems settling the
frozen claims about the specification.

Conventions of the embedding:
- Go `map[string]*v1.Book` is modelled as an association list with
  Go-map semantics (assignment replaces the entry in place, `delete`
  removes it, lookup finds the first entry; iteration follows list
  order — Go leaves map iteration order unspecified).
- gRPC results `(T, error)` are modelled as `Except GrpcStatus T`.
- `crypto/rand` output is an explicit input: each create operation
  takes the 16 random bytes it would have read as a parameter, so
  every possible random outcome is covered by quantification.
- machine integers are modelled as `Int`; the Go `int32(x)` conversion
  is two's-complement wrapping, written with an explicit `% 2 ^ 32`.
- timestamps are abstract instants modelled as `Int`; the database
  clock `now()` is an explicit input of the operations that read it.
-/

/-- gRPC status codes used by the service (`codes.NotFound`, `codes.Internal`). -/
inductive Code where
  | NotFound
  | Internal
deriving DecidableEq, Repr

/-- gRPC status error as produced by `status.Errorf(code, msg, ...)`. -/
structure GrpcStatus where
  code : Code
  msg : String
deriving DecidableEq, Repr

/-- Modelled from the spec: the wire DTO `v1.Book` (generated protobuf code,
not under src/); its field set is the one populated throughout the source:
`Id`, `Title`, `Author`, `Edition` (a 32-bit integer on the wire), `Isbn`. -/
structure V1Book where
  id : String
  title : String
  author : String
  edition : Int
  isbn : String
deriving DecidableEq, Repr

/-- Modelled from the spec: the request message `v1.CreateBookRequest`
(generated protobuf code, not under src/); fields as read by the service. -/
structure CreateBookRequest where
  title : String
  author : String
  edition : Int
  isbn : String
deriving DecidableEq, Repr

/-- Modelled from the spec: the request message `v1.UpdateBookRequest`
(generated protobuf code, not under src/); fields as read by the service. -/
structure UpdateBookRequest where
  id : String
  title : String
  author : String
  edition : Int
  isbn : String
deriving DecidableEq, Repr

/-- The gRPC error `status.Errorf(codes.NotFound, "book not found: %s", id)`. -/
def notFoundStatus (id : String) : GrpcStatus :=
  ⟨Code.NotFound, "book not found: " ++ id⟩

/-- The gRPC error `status.Errorf(codes.Internal, msg)`. -/
def internalStatus (msg : String) : GrpcStatus :=
  ⟨Code.Internal, msg⟩

namespace GoMap

/-- Go map lookup `v, ok := m[k]`: the first entry with the given key. -/
def get? {α : Type} : List (String × α) → String → Option α
  | [], _ => none
  | (k', v) :: rest, k => if k' = k then some v else get? rest k

/-- Go map assignment `m[k] = v`: replaces the entry in place, or appends. -/
def insert {α : Type} : List (String × α) → String → α → List (String × α)
  | [], k, v => [(k, v)]
  | (k', v') :: rest, k, v =>
      if k' = k then (k, v) :: rest else (k', v') :: insert rest k v

/-- Go map deletion `delete(m, k)`: removes every entry with the given key. -/
def erase {α : Type} : List (String × α) → String → List (String × α)
  | [], _ => []
  | (k', v') :: rest, k =>
      if k' = k then erase rest k else (k', v') :: erase rest k

theorem get?_insert_self {α : Type} (m : List (String × α)) (k : String) (v : α) :
    get? (insert m k v) k = some v := by
  induction m with
  | nil => simp [insert, get?]
  | cons p rest ih =>
      obtain ⟨k', v'⟩ := p
      by_cases h : k' = k
      · simp [insert, h, get?]
      · simp [insert, h, get?, ih]

theorem get?_erase_self {α : Type} (m : List (String × α)) (k : String) :
    get? (erase m k) k = none := by
  induction m with
  | nil => simp [erase, get?]
  | cons p rest ih =>
      obtain ⟨k', v'⟩ := p
      by_cases h : k' = k
      · simp [erase, h, ih]
      · simp [erase, h, get?, ih]

end GoMap

/-- Hex digit table of `encoding/hex`: lowercase `0`–`9`, `a`–`f`. -/
def hexDigit (n : Nat) : Char :=
  if n < 10 then Char.ofNat (48 + n) else Char.ofNat (87 + n)

/-- Characters of `hex.EncodeToString`: each byte becomes its high then
low nibble as hex digits. -/
def hexChars : List Nat → List Char
  | [] => []
  | b :: rest => hexDigit (b / 16) :: hexDigit (b % 16) :: hexChars rest

/-- Embedding of `hex.EncodeToString(bytes)`. -/
def hexEncodeToString (bytes : List Nat) : String :=
  String.mk (hexChars bytes)

namespace Mem

/-- State of the in-memory service (`internal/service/library.go`): the
`books map[string]*v1.Book` collection, keyed by record identity. -/
abbrev State := List (String × V1Book)

/-- The `v1.Book` value built by the in-memory `CreateBook` from the
generated identity and the request fields. -/
def newBook (idBytes : List Nat) (req : CreateBookRequest) : V1Book :=
  { id := hexEncodeToString idBytes
    title := req.title
    author := req.author
    edition := req.edition
    isbn := req.isbn }

/-- Embedding of the in-memory `CreateBook`: reads 16 random bytes
(passed here as `idBytes`; the outcome of `rand.Read` is ignored by the
source), hex-encodes them as the identity, stores the book built from the
request fields, and returns it with a nil error. -/
def CreateBook (idBytes : List Nat) (req : CreateBookRequest) (s : State) :
    Except GrpcStatus (V1Book × State) :=
  let book := newBook idBytes req
  Except.ok (book, GoMap.insert s book.id book)

/-- Embedding of the in-memory `GetBook`: map lookup; `NotFound` when the
identity is absent. -/
def GetBook (s : State) (id : String) : Except GrpcStatus V1Book :=
  match GoMap.get? s id with
  | none => Except.error (notFoundStatus id)
  | some book => Except.ok book

/-- Embedding of the in-memory `UpdateBook`: lookup, `NotFound` when
absent; otherwise the stored book's title, author, edition and isbn are
replaced by the request's values (the identity field is not touched) and
the book is stored back under the request's identity. -/
def UpdateBook (s : State) (req : UpdateBookRequest) :
    Except GrpcStatus (V1Book × State) :=
  match GoMap.get? s req.id with
  | none => Except.error (notFoundStatus req.id)
  | some book =>
      let book' := { book with
        title := req.title
        author := req.author
        edition := req.edition
        isbn := req.isbn }
      Except.ok (book', GoMap.insert s req.id book')

/-- Embedding of the in-memory `DeleteBook`: lookup, `NotFound` when
absent; otherwise the entry is deleted and an empty response returned. -/
def DeleteBook (s : State) (id : String) : Except GrpcStatus State :=
  match GoMap.get? s id with
  | none => Except.error (notFoundStatus id)
  | some _ => Except.ok (GoMap.erase s id)

/-- The loop body of the in-memory `ListBooks`: range over the stored
books, `continue` past any book with empty isbn or empty title, append
the rest. -/
def listLoop : List V1Book → List V1Book
  | [] => []
  | b :: rest =>
      if b.isbn = "" ∨ b.title = "" then listLoop rest
      else b :: listLoop rest

/-- Embedding of the in-memory `ListBooks`: iterates the collection and
returns the retained books with a nil error. -/
def ListBooks (s : State) : Except GrpcStatus (List V1Book) :=
  Except.ok (listLoop (s.map Prod.snd))

/-- A sequence of `CreateBook` calls, each with its own random bytes and
request, threading the state; returns the created books in call order. -/
def createMany : List (List Nat × CreateBookRequest) → State → List V1Book × State
  | [], s => ([], s)
  | (idBytes, req) :: rest, s =>
      match CreateBook idBytes req s with
      | Except.ok (b, s1) =>
          let p := createMany rest s1
          (b :: p.1, p.2)
      | Except.error _ => ([], s)

end Mem

/-- Embedding of `domain.Book` (`internal/domain/book.go`): `Edition` is a
machine-width Go `int`, the timestamps are `time.Time` instants modelled as
abstract integer instants. -/
structure DomainBook where
  id : String
  title : String
  author : String
  edition : Int
  isbn : String
  createdAt : Int
  updatedAt : Int
deriving DecidableEq, Repr

/-- Two's-complement wrap of the Go conversion `int32(x)`: the value
reduced into `[-2 ^ 31, 2 ^ 31)` modulo `2 ^ 32`. -/
def int32wrap (n : Int) : Int :=
  (n + 2 ^ 31) % 2 ^ 32 - 2 ^ 31

/-- Embedding of `domain.BookToDto`: translates a stored record to the wire
DTO; `Edition` goes through `int32(book.Edition)`, the timestamps are
dropped (the DTO carries none). -/
def BookToDto (book : DomainBook) : V1Book :=
  { id := book.id
    title := book.title
    author := book.author
    edition := int32wrap book.edition
    isbn := book.isbn }

/-- Error taxonomy of the repository boundary. `NotFound` is the sentinel
`repository.ErrNotFound` (its declaration is referenced but not under
src/; modelled from the spec as a tagged variant of a closed error set);
`Backend` is any other backend-native error, carrying its message. -/
inductive RepoError where
  | NotFound
  | Backend (msg : String)
deriving DecidableEq, Repr

/-- The `%v` rendering of a repository error, as interpolated into the
service's `Internal` messages. -/
def RepoError.render : RepoError → String
  | RepoError.NotFound => "not found"
  | RepoError.Backend msg => msg

namespace Db

/-- The `books` table of the CockroachDB repository: a collection of rows
(`id` is the primary key). -/
abbrev Table := List DomainBook

/-- Row lookup `WHERE id = $1` (first matching row). -/
def findRow : Table → String → Option DomainBook
  | [], _ => none
  | r :: rest, id => if r.id = id then some r else findRow rest id

/-- Embedding of the repository `GetBookByID`: `SELECT ... WHERE id = $1`;
`sql.ErrNoRows` becomes `repository.ErrNotFound`. -/
def GetBookByID (t : Table) (id : String) : Except RepoError DomainBook :=
  match findRow t id with
  | none => Except.error RepoError.NotFound
  | some r => Except.ok r

/-- Embedding of the repository `UpdateBook`:
`UPDATE books SET title=$1, author=$2, edition=$3, isbn=$4, updated_at=now()
WHERE id=$5 RETURNING updated_at` inside a transaction. When no row
matches, the scan yields `sql.ErrNoRows`, mapped to
`repository.ErrNotFound` and the transaction rolls back. On success the
matching row's four mutable fields and `updated_at` are replaced (its
`id` and `created_at` are untouched), and the caller's book is returned
with its `UpdatedAt` set from the `RETURNING` clause. The database clock
value `now()` is the explicit parameter `now`. -/
def UpdateBook (now : Int) (t : Table) (book : DomainBook) :
    Except RepoError (DomainBook × Table) :=
  match findRow t book.id with
  | none => Except.error RepoError.NotFound
  | some _ =>
      let t' := t.map fun r =>
        if r.id = book.id then
          { r with
            title := book.title
            author := book.author
            edition := book.edition
            isbn := book.isbn
            updatedAt := now }
        else r
      Except.ok ({ book with updatedAt := now }, t')

/-- Embedding of the repository `DeleteBook`:
`DELETE FROM books WHERE id = $1` inside a transaction; when the reported
`RowsAffected` is zero the function returns `repository.ErrNotFound`
(zero rows affected is not success) and the transaction rolls back. -/
def DeleteBook (t : Table) (id : String) : Except RepoError Table :=
  let remaining := t.filter fun r => ¬ r.id = id
  if remaining.length = t.length then Except.error RepoError.NotFound
  else Except.ok remaining

end Db

namespace Svc

/-- Embedding of the delegating service's `GetBook`
(the `internal/service/library.go` variant that holds only a
`repository.BookRepository`): the backend call's outcome is the explicit
parameter `repoRes`, so the service value is a function of the backend's
answer alone. `errors.Is(err, repository.ErrNotFound)` becomes
`codes.NotFound`; any other error becomes `codes.Internal`; a record is
translated by `domain.BookToDto`. -/
def GetBook (id : String) (repoRes : Except RepoError DomainBook) :
    Except GrpcStatus V1Book :=
  match repoRes with
  | Except.error RepoError.NotFound =>
      Except.error (notFoundStatus id)
  | Except.error e =>
      Except.error (internalStatus ("failed to get book: " ++ e.render))
  | Except.ok book => Except.ok (BookToDto book)

/-- The loop body of the delegating `ListBooks`: `continue` past any
record with empty ISBN or empty title, translate and append the rest. -/
def listLoop : List DomainBook → List V1Book
  | [] => []
  | b :: rest =>
      if b.isbn = "" ∨ b.title = "" then listLoop rest
      else BookToDto b :: listLoop rest

/-- Embedding of the delegating service's `ListBooks`: any backend error
becomes `codes.Internal`; on success the records are filtered and
translated by the loop. -/
def ListBooks (repoRes : Except RepoError (List DomainBook)) :
    Except GrpcStatus (List V1Book) :=
  match repoRes with
  | Except.error e =>
      Except.error (internalStatus ("failed to list books: " ++ e.render))
  | Except.ok books => Except.ok (listLoop books)

end Svc

/-- Spec-side reading of a Get, following the spec's words: the result
equals the backend's `GetByID` result after error mapping
(`NotFoundError` to `NotFound`, anything else to `Internal`) and DTO
translation. -/
def specGetRead (id : String) (repoRes : Except RepoError DomainBook) :
    Except GrpcStatus V1Book :=
  (repoRes.mapError fun e =>
    match e with
    | RepoError.NotFound => notFoundStatus id
    | RepoError.Backend msg =>
        internalStatus ("failed to get book: " ++ msg)).map BookToDto

/-- Whether a record is complete in the spec's sense: title and external
catalog identifier both non-empty. -/
def isCompleteRecord (b : DomainBook) : Bool :=
  ¬ b.title = "" ∧ ¬ b.isbn = ""

/-- Spec-side reading of a List, following the spec's words: the result
equals the backend's `List` result after error mapping (to `Internal`),
validity filtering of incomplete records, and DTO translation,
preserving the backend's relative order. -/
def specListRead (repoRes : Except RepoError (List DomainBook)) :
    Except GrpcStatus (List V1Book) :=
  (repoRes.mapError fun e =>
    internalStatus ("failed to list books: " ++ e.render)).map
    fun books => (books.filter isCompleteRecord).map BookToDto

/-- Whether a wire DTO record is complete in the spec's sense: title and
external catalog identifier both non-empty. -/
def isCompleteDto (b : V1Book) : Bool :=
  ¬ b.title = "" ∧ ¬ b.isbn = ""

theorem hexDigit_fin_inj : ∀ a b : Fin 16, hexDigit a.val = hexDigit b.val → a = b := by
  decide

theorem hexDigit_inj {a b : Nat} (ha : a < 16) (hb : b < 16)
    (h : hexDigit a = hexDigit b) : a = b :=
  congrArg Fin.val (hexDigit_fin_inj ⟨a, ha⟩ ⟨b, hb⟩ h)

theorem hexChars_inj : ∀ xs ys : List Nat, (∀ x ∈ xs, x < 256) →
    (∀ y ∈ ys, y < 256) → hexChars xs = hexChars ys → xs = ys
  | [], [], _, _, _ => rfl
  | [], _ :: _, _, _, h => by simp [hexChars] at h
  | _ :: _, [], _, _, h => by simp [hexChars] at h
  | x :: xs, y :: ys, hx, hy, h => by
      have hx0 : x < 256 := hx x (by simp)
      have hy0 : y < 256 := hy y (by simp)
      rw [hexChars, hexChars] at h
      injection h with h1 h'
      injection h' with h2 h3
      have e1 : x / 16 = y / 16 := hexDigit_inj (by omega) (by omega) h1
      have e2 : x % 16 = y % 16 := hexDigit_inj (by omega) (by omega) h2
      have exy : x = y := by omega
      have erest : xs = ys :=
        hexChars_inj xs ys (fun a ha => hx a (List.mem_cons_of_mem _ ha))
          (fun a ha => hy a (List.mem_cons_of_mem _ ha)) h3
      rw [exy, erest]

theorem hexEncodeToString_inj {xs ys : List Nat} (hx : ∀ x ∈ xs, x < 256)
    (hy : ∀ y ∈ ys, y < 256) (h : hexEncodeToString xs = hexEncodeToString ys) :
    xs = ys :=
  hexChars_inj xs ys hx hy (congrArg String.data h)

theorem Mem.createMany_map_id :
    ∀ (inputs : List (List Nat × CreateBookRequest)) (s : Mem.State),
      ((Mem.createMany inputs s).1).map V1Book.id =
        inputs.map fun p => hexEncodeToString p.1 := by
  intro inputs
  induction inputs with
  | nil => intro s; rfl
  | cons p rest ih =>
      intro s
      obtain ⟨bytes, req⟩ := p
      simp [Mem.createMany, Mem.CreateBook, Mem.newBook, ih]

theorem Mem.listLoop_eq_filter (l : List V1Book) :
    Mem.listLoop l = l.filter isCompleteDto := by
  induction l with
  | nil => rfl
  | cons b rest ih =>
      by_cases h1 : b.isbn = "" <;> by_cases h2 : b.title = "" <;>
        simp [Mem.listLoop, isCompleteDto, h1, h2, ih]

theorem Svc.listLoop_eq_filter_map (l : List DomainBook) :
    Svc.listLoop l = (l.filter isCompleteRecord).map BookToDto := by
  induction l with
  | nil => rfl
  | cons b rest ih =>
      by_cases h1 : b.isbn = "" <;> by_cases h2 : b.title = "" <;>
        simp [Svc.listLoop, isCompleteRecord, h1, h2, ih]

theorem Db.findRow_eq_none_of_all_ne (t : Db.Table) (id : String)
    (h : ∀ r ∈ t, ¬ r.id = id) : Db.findRow t id = none := by
  induction t with
  | nil => rfl
  | cons r rest ih =>
      rw [Db.findRow, if_neg (h r (by simp))]
      exact ih fun a ha => h a (List.mem_cons_of_mem _ ha)


theorem Db.findRow_map_of_id_fixed (g : DomainBook → DomainBook)
    (t : Db.Table) (id : String) (old : DomainBook)
    (hg : ∀ r, (g r).id = r.id) (h : Db.findRow t id = some old) :
    Db.findRow (t.map fun r => if r.id = id then g r else r) id = some (g old) := by
  induction t with
  | nil => simp [Db.findRow] at h
  | cons r rest ih =>
      rw [Db.findRow] at h
      by_cases hr : r.id = id
      · rw [if_pos hr] at h
        injection h with h
        subst h
        simp [Db.findRow, hr, hg]
      · rw [if_neg hr] at h
        simp only [List.map_cons, Db.findRow, if_neg hr, hr, if_false]
        exact ih h

/-- Claim C2 (read-your-write): for every request, random-byte outcome and
prior state, after the in-memory `CreateBook` returns a record, an
immediately following `GetBook` at that record's identity returns the very
same record. -/
theorem create_then_get_read_your_write
    (idBytes : List Nat) (req : CreateBookRequest) (s : Mem.State)
    (b : V1Book) (s1 : Mem.State)
    (h : Mem.CreateBook idBytes req s = Except.ok (b, s1)) :
    Mem.GetBook s1 b.id = Except.ok b := by
  simp only [Mem.CreateBook, Except.ok.injEq, Prod.mk.injEq] at h
  obtain ⟨hb, hs⟩ := h
  subst hb
  subst hs
  simp [Mem.GetBook, GoMap.get?_insert_self]

/-- Claim C2 witness: the read-your-write theorem applied at a concrete
request, byte string and empty prior state. -/
theorem create_then_get_read_your_write_check :
    Mem.GetBook
      (GoMap.insert [] (Mem.newBook (List.replicate 16 0) ⟨"Dune", "Herbert", 1, "978-0"⟩).id
        (Mem.newBook (List.replicate 16 0) ⟨"Dune", "Herbert", 1, "978-0"⟩))
      (Mem.newBook (List.replicate 16 0) ⟨"Dune", "Herbert", 1, "978-0"⟩).id =
    Except.ok (Mem.newBook (List.replicate 16 0) ⟨"Dune", "Herbert", 1, "978-0"⟩) :=
  create_then_get_read_your_write (List.replicate 16 0)
    ⟨"Dune", "Herbert", 1, "978-0"⟩ [] _ _ rfl

/-- Claim C3 (not-found symmetry): on any state whose collection has no
entry for the given identity (never created, or previously deleted),
`GetBook`, `UpdateBook` and `DeleteBook` each return the `NotFound`
error and no result. -/
theorem not_found_symmetry (s : Mem.State) (req : UpdateBookRequest)
    (h : GoMap.get? s req.id = none) :
    Mem.GetBook s req.id = Except.error (notFoundStatus req.id) ∧
    Mem.UpdateBook s req = Except.error (notFoundStatus req.id) ∧
    Mem.DeleteBook s req.id = Except.error (notFoundStatus req.id) := by
  refine ⟨?_, ?_, ?_⟩ <;> simp [Mem.GetBook, Mem.UpdateBook, Mem.DeleteBook, h]

/-- Claim C3 witness: the not-found symmetry theorem applied on the empty
state at a concrete identity. -/
theorem not_found_symmetry_check :
    Mem.GetBook [] "missing" = Except.error (notFoundStatus "missing") ∧
    Mem.UpdateBook [] ⟨"missing", "t", "a", 1, "i"⟩ =
      Except.error (notFoundStatus "missing") ∧
    Mem.DeleteBook [] "missing" = Except.error (notFoundStatus "missing") :=
  not_found_symmetry [] ⟨"missing", "t", "a", 1, "i"⟩ rfl

/-- Claim C4 (delete is terminal, non-idempotent success): after a
successful delete — in the in-memory service and in the database
repository alike — a `Get` of the identity fails with `NotFound` and a
second delete also fails with `NotFound` (a delete affecting zero
rows/entries is an error, never silent success). -/
theorem delete_is_terminal :
    (∀ (s : Mem.State) (id : String) (s1 : Mem.State),
      Mem.DeleteBook s id = Except.ok s1 →
      Mem.GetBook s1 id = Except.error (notFoundStatus id) ∧
      Mem.DeleteBook s1 id = Except.error (notFoundStatus id)) ∧
    (∀ (t : Db.Table) (id : String) (t1 : Db.Table),
      Db.DeleteBook t id = Except.ok t1 →
      Db.GetBookByID t1 id = Except.error RepoError.NotFound ∧
      Db.DeleteBook t1 id = Except.error RepoError.NotFound) := by
  constructor
  · intro s id s1 h
    rw [Mem.DeleteBook] at h
    cases hg : GoMap.get? s id with
    | none => rw [hg] at h; exact absurd h (by simp)
    | some b =>
        rw [hg] at h
        injection h with h1
        subst h1
        constructor
        · simp [Mem.GetBook, GoMap.get?_erase_self]
        · simp [Mem.DeleteBook, GoMap.get?_erase_self]
  · intro t id t1 h
    simp only [Db.DeleteBook] at h
    split at h
    · exact absurd h (by simp)
    · injection h with h1
      subst h1
      have hmem : ∀ r ∈ t.filter (fun r => ¬ r.id = id), ¬ r.id = id := by
        intro r hr
        simpa using List.of_mem_filter hr
      constructor
      · rw [Db.GetBookByID, Db.findRow_eq_none_of_all_ne _ _ hmem]
      · have hfix : (t.filter fun r => ¬ r.id = id).filter (fun r => ¬ r.id = id) =
            t.filter fun r => ¬ r.id = id :=
          List.filter_eq_self.mpr fun a ha => by simpa using hmem a ha
        simp [Db.DeleteBook, hfix]

/-- Claim C4 witness: the delete-is-terminal theorem applied after
deleting the single record of a concrete one-record state, in both the
in-memory and the database embedding. -/
theorem delete_is_terminal_check :
    (Mem.GetBook [] "x" = Except.error (notFoundStatus "x") ∧
      Mem.DeleteBook [] "x" = Except.error (notFoundStatus "x")) ∧
    (Db.GetBookByID [] "x" = Except.error RepoError.NotFound ∧
      Db.DeleteBook [] "x" = Except.error RepoError.NotFound) :=
  ⟨delete_is_terminal.1 [("x", ⟨"x", "T", "A", 1, "I"⟩)] "x" [] rfl,
   delete_is_terminal.2 [⟨"x", "T", "A", 1, "I", 0, 0⟩] "x" [] rfl⟩

/-- Claim C6 (list filters incomplete records): for every stored
collection, the in-memory `ListBooks` succeeds and returns exactly the
stored records whose title and external catalog identifier are both
non-empty, in storage order, and every stored record — the excluded
incomplete ones included — remains individually retrievable via
`GetBook`. -/
theorem list_filters_incomplete_records (s : Mem.State) :
    Mem.ListBooks s = Except.ok ((s.map Prod.snd).filter isCompleteDto) ∧
    (∀ (id : String) (b : V1Book), GoMap.get? s id = some b →
      Mem.GetBook s id = Except.ok b) := by
  constructor
  · rw [Mem.ListBooks, Mem.listLoop_eq_filter]
  · intro id b h
    simp [Mem.GetBook, h]

/-- Claim C6 witness: the filtering theorem applied on a concrete state
holding one complete and one incomplete record; the list retains only the
complete one while the incomplete one is still retrievable. -/
theorem list_filters_incomplete_records_check :
    Mem.ListBooks [("a", ⟨"a", "T", "A", 1, "I"⟩), ("b", ⟨"b", "", "A", 1, ""⟩)] =
      Except.ok [⟨"a", "T", "A", 1, "I"⟩] ∧
    Mem.GetBook [("a", ⟨"a", "T", "A", 1, "I"⟩), ("b", ⟨"b", "", "A", 1, ""⟩)] "b" =
      Except.ok ⟨"b", "", "A", 1, ""⟩ :=
  ⟨(list_filters_incomplete_records
      [("a", ⟨"a", "T", "A", 1, "I"⟩), ("b", ⟨"b", "", "A", 1, ""⟩)]).1,
   (list_filters_incomplete_records
      [("a", ⟨"a", "T", "A", 1, "I"⟩), ("b", ⟨"b", "", "A", 1, ""⟩)]).2 "b" _ rfl⟩

/-- Claim C9 (implicit; in-memory create is total and infallible): for
every random-byte outcome (the result of `rand.Read` is ignored by the
source), every request — empty fields included — and every prior state,
the in-memory `CreateBook` returns a record and a nil error; the record
echoes the request fields and carries the hex-encoded bytes as identity. -/
theorem create_book_infallible
    (idBytes : List Nat) (req : CreateBookRequest) (s : Mem.State) :
    ∃ (b : V1Book) (s1 : Mem.State),
      Mem.CreateBook idBytes req s = Except.ok (b, s1) ∧
      b.id = hexEncodeToString idBytes ∧
      b.title = req.title ∧ b.author = req.author ∧
      b.edition = req.edition ∧ b.isbn = req.isbn :=
  ⟨Mem.newBook idBytes req, GoMap.insert s (Mem.newBook idBytes req).id (Mem.newBook idBytes req),
   rfl, rfl, rfl, rfl, rfl, rfl⟩

/-- Claim C10 (implicit; DTO narrows the edition): `BookToDto` converts
the domain record's machine-width edition by `int32(...)`: when the value
fits in a signed 32-bit integer the DTO carries it unchanged, otherwise
the DTO carries the value wrapped modulo `2 ^ 32` into the signed 32-bit
range. -/
theorem book_to_dto_edition_narrowing (book : DomainBook) :
    ((-(2 ^ 31) ≤ book.edition ∧ book.edition < 2 ^ 31) →
      (BookToDto book).edition = book.edition) ∧
    (BookToDto book).edition % 2 ^ 32 = book.edition % 2 ^ 32 ∧
    -(2 ^ 31) ≤ (BookToDto book).edition ∧ (BookToDto book).edition < 2 ^ 31 := by
  have h31 : (2 : Int) ^ 31 = 2147483648 := by norm_num
  have h32 : (2 : Int) ^ 32 = 4294967296 := by norm_num
  simp only [BookToDto, int32wrap, h31, h32]
  refine ⟨fun h => ?_, ?_, ?_, ?_⟩ <;> omega

/-- Claim C10 witness: the narrowing theorem applied at a concrete
in-range edition. -/
theorem book_to_dto_edition_narrowing_check :
    (BookToDto ⟨"id1", "t", "a", 5, "i", 0, 0⟩).edition = 5 :=
  (book_to_dto_edition_narrowing ⟨"id1", "t", "a", 5, "i", 0, 0⟩).1 (by norm_num)

/-- Claim C1 counterexample: the delegating `ListBooks` does not equal
the backend's `List` result after error mapping and DTO translation
alone — on a backend list holding one incomplete record the service
returns the empty list while the bare DTO translation of the backend
result keeps the record. -/
theorem listBooks_not_bare_dto_translation :
    Svc.ListBooks (Except.ok [⟨"i1", "", "A", 1, "", 0, 0⟩]) =
      Except.ok ([] : List V1Book) ∧
    (Except.ok [⟨"i1", "", "A", 1, "", 0, 0⟩] :
        Except RepoError (List DomainBook)).map (List.map BookToDto) =
      Except.ok [BookToDto ⟨"i1", "", "A", 1, "", 0, 0⟩] ∧
    (Except.ok ([] : List V1Book) : Except GrpcStatus (List V1Book)) ≠
      Except.ok [BookToDto ⟨"i1", "", "A", 1, "", 0, 0⟩] := by
  refine ⟨rfl, rfl, fun h => ?_⟩
  injection h with h'
  simp at h'

/-- Claim C1 as amended (reads are pure backend translations): the
delegating Registry Service keeps no copy of backend records — each read
is a function of the backend's current answer alone; `GetBook` equals the
backend's `GetByID` outcome after error mapping and DTO translation, and
`ListBooks` equals the backend's `List` outcome after error mapping,
incomplete-record filtering, and DTO translation. -/
theorem read_ops_equal_backend_translation :
    (∀ (id : String) (r : Except RepoError DomainBook),
      Svc.GetBook id r = specGetRead id r) ∧
    (∀ r : Except RepoError (List DomainBook),
      Svc.ListBooks r = specListRead r) := by
  constructor
  · intro id r
    cases r with
    | error e => cases e <;> rfl
    | ok b => rfl
  · intro r
    cases r with
    | error e => rfl
    | ok books =>
        simp [Svc.ListBooks, specListRead, Svc.listLoop_eq_filter_map,
          Except.map, Except.mapError]

/-- Claim C5 counterexample: a successful repository update whose clock
value `now()` equals the record's prior `updated_at` leaves the stored
last-modification timestamp unchanged — it does not strictly increase. -/
theorem update_timestamp_not_strict :
    Db.UpdateBook 5 [⟨"a", "T", "A", 1, "I", 0, 5⟩] ⟨"a", "T2", "A2", 2, "I2", 0, 0⟩ =
      Except.ok (⟨"a", "T2", "A2", 2, "I2", 0, 5⟩, [⟨"a", "T2", "A2", 2, "I2", 0, 5⟩]) ∧
    ¬ ((⟨"a", "T", "A", 1, "I", 0, 5⟩ : DomainBook).updatedAt <
        (⟨"a", "T2", "A2", 2, "I2", 0, 5⟩ : DomainBook).updatedAt) :=
  ⟨rfl, by norm_num⟩

/-- Claim C5 as amended (update replaces fully): a successful update of an
existing record makes a subsequent get reflect all the new
title/author/edition/identifier values with identity (and creation
timestamp) unchanged — no prior mutable field survives — and sets the
stored last-modification timestamp to the update-time clock value, so it
strictly increases whenever that clock value exceeds the prior timestamp
(the clock is outside the code's control, and the in-memory service
variant stores no timestamps at all). -/
theorem update_replaces_fully :
    (∀ (now : Int) (t : Db.Table) (book ret : DomainBook) (t' : Db.Table)
        (old : DomainBook),
      Db.UpdateBook now t book = Except.ok (ret, t') →
      Db.findRow t book.id = some old →
      Db.GetBookByID t' book.id =
        Except.ok { old with
          title := book.title, author := book.author,
          edition := book.edition, isbn := book.isbn, updatedAt := now } ∧
      ret.updatedAt = now ∧
      (∀ newRow, Db.findRow t' book.id = some newRow →
        newRow.id = old.id ∧ newRow.createdAt = old.createdAt ∧
        newRow.title = book.title ∧ newRow.author = book.author ∧
        newRow.edition = book.edition ∧ newRow.isbn = book.isbn ∧
        (old.updatedAt < now → old.updatedAt < newRow.updatedAt))) ∧
    (∀ (s : Mem.State) (req : UpdateBookRequest) (b : V1Book) (s1 : Mem.State)
        (old : V1Book),
      Mem.UpdateBook s req = Except.ok (b, s1) →
      GoMap.get? s req.id = some old →
      Mem.GetBook s1 req.id = Except.ok b ∧
      b.title = req.title ∧ b.author = req.author ∧
      b.edition = req.edition ∧ b.isbn = req.isbn ∧ b.id = old.id) := by
  constructor
  · intro now t book ret t' old h hfind
    rw [Db.UpdateBook, hfind] at h
    simp only [Except.ok.injEq, Prod.mk.injEq] at h
    obtain ⟨hret, ht'⟩ := h
    subst hret
    subst ht'
    have hrow := Db.findRow_map_of_id_fixed
      (fun r => { r with
        title := book.title, author := book.author,
        edition := book.edition, isbn := book.isbn, updatedAt := now })
      t book.id old (fun r => rfl) hfind
    refine ⟨?_, rfl, ?_⟩
    · rw [Db.GetBookByID, hrow]
    · intro newRow hnew
      rw [hrow] at hnew
      injection hnew with hnew
      subst hnew
      exact ⟨rfl, rfl, rfl, rfl, rfl, rfl, fun h => h⟩
  · intro s req b s1 old h hfind
    rw [Mem.UpdateBook, hfind] at h
    simp only [Except.ok.injEq, Prod.mk.injEq] at h
    obtain ⟨hb, hs⟩ := h
    subst hb
    subst hs
    exact ⟨by simp [Mem.GetBook, GoMap.get?_insert_self], rfl, rfl, rfl, rfl, rfl⟩

/-- Claim C5 witness: the amended update theorem applied at concrete
inputs — a database update at clock value 7 over a row stamped 0, and an
in-memory update of a stored record. -/
theorem update_replaces_fully_check :
    Db.GetBookByID [⟨"a", "T2", "A2", 2, "I2", 0, 7⟩] "a" =
      Except.ok ⟨"a", "T2", "A2", 2, "I2", 0, 7⟩ ∧
    ((⟨"a", "T", "A", 1, "I", 0, 0⟩ : DomainBook).updatedAt <
      (⟨"a", "T2", "A2", 2, "I2", 0, 7⟩ : DomainBook).updatedAt) ∧
    Mem.GetBook [("m", ⟨"m", "T2", "A2", 2, "I2"⟩)] "m" =
      Except.ok ⟨"m", "T2", "A2", 2, "I2"⟩ := by
  have hdb := update_replaces_fully.1 7 [⟨"a", "T", "A", 1, "I", 0, 0⟩]
    ⟨"a", "T2", "A2", 2, "I2", 0, 0⟩ ⟨"a", "T2", "A2", 2, "I2", 0, 7⟩
    [⟨"a", "T2", "A2", 2, "I2", 0, 7⟩] ⟨"a", "T", "A", 1, "I", 0, 0⟩ rfl rfl
  have hmem := update_replaces_fully.2 [("m", ⟨"m", "T", "A", 1, "I"⟩)]
    ⟨"m", "T2", "A2", 2, "I2"⟩ ⟨"m", "T2", "A2", 2, "I2"⟩
    [("m", ⟨"m", "T2", "A2", 2, "I2"⟩)] ⟨"m", "T", "A", 1, "I"⟩ rfl rfl
  exact ⟨hdb.1, (hdb.2.2 ⟨"a", "T2", "A2", 2, "I2", 0, 7⟩ rfl).2.2.2.2.2.2 (by norm_num),
    hmem.1⟩

/-- Claim C7 counterexample: two in-memory `CreateBook` calls whose
`crypto/rand` reads return the same 16 bytes return records with equal —
not pairwise distinct — identities; the code performs no collision check
(the second create silently overwrites the first). -/
theorem create_ids_collision :
    ((Mem.createMany
        [(List.replicate 16 0, ⟨"T", "A", 1, "I"⟩),
         (List.replicate 16 0, ⟨"T", "A", 1, "I"⟩)] []).1).map V1Book.id =
      [hexEncodeToString (List.replicate 16 0),
       hexEncodeToString (List.replicate 16 0)] ∧
    ¬ (((Mem.createMany
        [(List.replicate 16 0, ⟨"T", "A", 1, "I"⟩),
         (List.replicate 16 0, ⟨"T", "A", 1, "I"⟩)] []).1).map V1Book.id).Pairwise
      (fun a b => a ≠ b) := by
  refine ⟨rfl, fun h => ?_⟩
  have h' : ([hexEncodeToString (List.replicate 16 0),
      hexEncodeToString (List.replicate 16 0)] : List String).Pairwise
      (fun a b => a ≠ b) := h
  exact (List.pairwise_cons.mp h').1 _ (by simp) rfl

/-- Claim C7 as amended (uniqueness under fresh randomness): provided the
16-byte values drawn by `crypto/rand` across a sequence of in-memory
`CreateBook` calls are pairwise distinct, the identities of the returned
records are pairwise distinct; moreover each returned identity is a
function of its random bytes alone — independent of the state, so an
identity can recur after a deletion only if the same random bytes recur. -/
theorem create_ids_distinct_of_fresh_bytes :
    (∀ (inputs : List (List Nat × CreateBookRequest)) (s : Mem.State),
      (∀ p ∈ inputs, ∀ x ∈ p.1, x < 256) →
      inputs.Pairwise (fun p q => p.1 ≠ q.1) →
      (((Mem.createMany inputs s).1).map V1Book.id).Pairwise (fun a b => a ≠ b)) ∧
    (∀ (idBytes : List Nat) (req : CreateBookRequest) (s : Mem.State)
        (b : V1Book) (s1 : Mem.State),
      Mem.CreateBook idBytes req s = Except.ok (b, s1) →
      b.id = hexEncodeToString idBytes) := by
  constructor
  · intro inputs s hvalid hfresh
    rw [Mem.createMany_map_id, List.pairwise_map]
    refine List.Pairwise.imp_of_mem ?_ hfresh
    intro p q hp hq hne heq
    exact hne (hexEncodeToString_inj (hvalid p hp) (hvalid q hq) heq)
  · intro idBytes req s b s1 h
    simp only [Mem.CreateBook, Except.ok.injEq, Prod.mk.injEq] at h
    obtain ⟨hb, -⟩ := h
    rw [← hb]
    rfl

/-- Claim C7 witness: the amended uniqueness theorem applied to two
creates with distinct concrete byte strings, and the identity-function
conjunct applied at a concrete create. -/
theorem create_ids_distinct_of_fresh_bytes_check :
    (((Mem.createMany
        [(List.replicate 16 0, ⟨"T", "A", 1, "I"⟩),
         (List.replicate 16 1, ⟨"T", "A", 1, "I"⟩)] []).1).map V1Book.id).Pairwise
      (fun a b => a ≠ b) ∧
    (Mem.newBook (List.replicate 16 7) ⟨"T", "A", 1, "I"⟩).id =
      hexEncodeToString (List.replicate 16 7) :=
  ⟨create_ids_distinct_of_fresh_bytes.1
      [(List.replicate 16 0, ⟨"T", "A", 1, "I"⟩),
       (List.replicate 16 1, ⟨"T", "A", 1, "I"⟩)] [] (by decide) (by decide),
   create_ids_distinct_of_fresh_bytes.2 (List.replicate 16 7) ⟨"T", "A", 1, "I"⟩
      [] _ _ rfl⟩
